import Mathlib

/-!
Verification development for the ts_ess_ringss data-client core.

The embedding below follows the two Python modules of the repository:

* `sqlalchemy_data_client.py` — the abstract polling client
  (`get_config_schema`, `configure`, `descr`, `execute_sql_query` with its
  `backoff.on_exception(backoff.expo, OperationalError, max_tries=2)`
  decorator, and `read_data`), and
* `ringss_data_client.py` — the concrete RINGSS client
  (`get_sql_query`, `get_simulation_data`, `process`).

Timestamps and numeric column values are modelled as exact rationals `ℚ`
(the Python code compares and scales numbers; no property below depends on
floating-point rounding).  Side effects (emission to the telemetry sink,
sleeping, connecting) are modelled as explicit action traces.
-/

namespace Ringss

/-- One raw row of the RINGSS database table, as the dictionary
`dict(row._mapping)` handed to `RingssDataClient.process`: the column names
of the table (see `get_simulation_data` in `ringss_data_client.py`). -/
structure RawRow where
  time : ℚ
  star : ℚ
  zen : ℚ
  flux : ℚ
  see2 : ℚ
  see : ℚ
  fsee : ℚ
  wind : ℚ
  tau0 : ℚ
  theta0 : ℚ
  totvar : ℚ
  erms : ℚ
  J0 : ℚ
  J025 : ℚ
  J05 : ℚ
  J1 : ℚ
  J2 : ℚ
  J4 : ℚ
  J8 : ℚ
  J16 : ℚ
  deriving DecidableEq

/-- The structured output record emitted as the `ringssMeasurement` event:
the keyword dictionary built by `RingssDataClient.process`. -/
structure Event where
  timestamp : ℚ
  hrNum : ℚ
  zenithDistance : ℚ
  flux : ℚ
  fwhmScintillation : ℚ
  fwhmSector : ℚ
  fwhmFree : ℚ
  wind : ℚ
  tau0 : ℚ
  theta0 : ℚ
  totalVariance : ℚ
  eRMS : ℚ
  turbulenceProfiles : List ℚ
  deriving DecidableEq

/-- The `ringss_event` dictionary constructed by `RingssDataClient.process`
from one raw row.  `tai_from_utc` is an external time-scale conversion
(from `lsst.ts.utils`), modelled as an explicit function parameter
`tai : ℚ → ℚ` applied to the row's source timestamp. -/
def ringss_event (tai : ℚ → ℚ) (row : RawRow) : Event :=
  { timestamp := tai row.time
    hrNum := row.star
    zenithDistance := row.zen
    flux := row.flux
    fwhmScintillation := row.see
    fwhmSector := row.see2
    fwhmFree := row.fsee
    wind := row.wind
    tau0 := row.tau0
    theta0 := row.theta0
    totalVariance := row.totvar
    eRMS := row.erms
    turbulenceProfiles :=
      [ row.J0 * (1e-13 : ℚ)
      , row.J025 * (1e-13 : ℚ)
      , row.J05 * (1e-13 : ℚ)
      , row.J1 * (1e-13 : ℚ)
      , row.J2 * (1e-13 : ℚ)
      , row.J4 * (1e-13 : ℚ)
      , row.J8 * (1e-13 : ℚ)
      , row.J16 * (1e-13 : ℚ) ] }

/-- Observable side effects of one `RingssDataClient.process` call, in
program order. -/
inductive Effect where
  | emit (e : Event)
  | logDebug
  | setLastTimestamp (t : ℚ)
  | wroteEventSet
  deriving DecidableEq

/-- One `RingssDataClient.process` call: given the current watermark
`last_timestamp` and a raw row, it returns the new watermark together with
the ordered trace of effects the method body performs — emit the event via
`self.topics.evt_ringssMeasurement.set_write`, log, assign
`self.last_timestamp = max((self.last_timestamp, timestamp))`, and set
`self.wrote_event`. -/
def process (tai : ℚ → ℚ) (last_timestamp : ℚ) (row : RawRow) :
    ℚ × List Effect :=
  let ev := ringss_event tai row
  let newLast := max last_timestamp row.time
  (newLast,
    [Effect.emit ev, Effect.logDebug, Effect.setLastTimestamp newLast,
      Effect.wroteEventSet])

/-- The watermark (`self.last_timestamp`) after processing a sequence of
rows starting from initial value `w0`. -/
def watermarkAfter (tai : ℚ → ℚ) (w0 : ℚ) (rows : List RawRow) : ℚ :=
  rows.foldl (fun w r => (process tai w r).1) w0

/-- A result row of a SQLAlchemy query; `mapping` models `row._mapping`,
and `dict(row._mapping)` in `read_data` is the plain field mapping
extracted from it. -/
structure SqlRow where
  mapping : RawRow
  deriving DecidableEq

/-- The `get_simulation_data` method of `RingssDataClient`: a fully
populated raw row whose `time` field is the current wall-clock time
(`datetime.datetime.utcnow()`, modelled as the parameter `now`) and whose
remaining fields are the fixed representative values from the source. -/
def get_simulation_data (now : ℚ) : RawRow :=
  { time := now
    star := 1234
    zen := 10.0
    flux := 100000.5
    see2 := 0.9
    see := 0.8
    fsee := 1.1
    wind := 5.5
    tau0 := 12.1
    theta0 := 2.2
    totvar := 0.035
    erms := 0.3
    J0 := 2.2
    J025 := 0.0
    J05 := 0.08
    J1 := 0
    J2 := 0
    J4 := 0
    J8 := 0.4
    J16 := 0.3 }

/-- Observable actions of one `read_data` cycle, in program order:
`processed r` is one `await self.process(r)` call, `slept s` is the final
`await asyncio.sleep(self.poll_interval)`. -/
inductive ReadAction where
  | processed (row : RawRow)
  | slept (seconds : ℚ)
  deriving DecidableEq

/-- Projection selecting the row of a `processed` action. -/
def ReadAction.getProcessed : ReadAction → Option RawRow
  | .processed r => some r
  | _ => none

/-- Whether a `read_data` action is the sleep. -/
def ReadAction.isSleep : ReadAction → Bool
  | .slept _ => true
  | _ => false

/-- One `SqlalchemyDataClient.read_data` cycle as its ordered action trace.
When `simulation_mode = 0` every row returned by `execute_sql_query` is
passed to `process` as `dict(row._mapping)`, in order; otherwise the body
draws `random.randint(1, 6)` (modelled as `draw`) and processes exactly one
simulated row when the draw equals 6.  Either way the cycle ends by
sleeping for `poll_interval` seconds. -/
def read_data (simulation_mode : ℕ) (rows : List SqlRow) (draw : ℕ)
    (now : ℚ) (poll_interval : ℚ) : List ReadAction :=
  (if simulation_mode = 0 then
    rows.map (fun r => ReadAction.processed r.mapping)
  else if draw = 6 then
    [ReadAction.processed (get_simulation_data now)]
  else []) ++ [ReadAction.slept poll_interval]

/-- The `get_sql_query` method of `RingssDataClient`, as the character list
of the f-string `"SELECT * FROM {self.table_name} WHERE time > :t0"`. -/
def get_sql_query (table_name : List Char) : List Char :=
  "SELECT * FROM ".toList ++ table_name ++ " WHERE time > :t0".toList

/-- Shape of a parameterized SQL statement: select every row of `table`
whose `timeColumn` is strictly greater than the single bound parameter
`param`. -/
inductive SqlShape where
  | selectAllGt (table timeColumn param : List Char)

/-- Render a `SqlShape` to SQL text. -/
def renderSql : SqlShape → List Char
  | .selectAllGt table timeColumn param =>
    "SELECT * FROM ".toList ++ table ++
      (" WHERE ".toList ++ timeColumn ++ (" > :".toList ++ param))

/-- Exceptions a query attempt may raise, as classified by the `backoff`
decorator on `execute_sql_query`: `operationalError` is SQLAlchemy's
`OperationalError` (the only retried class); `runtimeError` models the
`RuntimeError("Not connected.")` raised by the method body; `otherError` is
any other exception. -/
inductive PyError where
  | operationalError (msg : String)
  | runtimeError (msg : String)
  | otherError (msg : String)
  deriving DecidableEq

/-- Whether an exception is in the retried class (`OperationalError`). -/
def PyError.isOperational : PyError → Bool
  | .operationalError _ => true
  | _ => false

/-- Delay produced by the `backoff.expo` generator before the n-th retry
(base 2, factor 1: 1, 2, 4, ... seconds, before jitter). -/
def expoDelay (n : ℕ) : ℚ := 2 ^ n

/-- The `backoff.on_exception(backoff.expo, OperationalError, max_tries)`
combinator.  `attempts i` is the outcome of the i-th invocation of the
wrapped coroutine (the database's response may differ between attempts).
`tryIdx` is the index of the next attempt and `remaining` the number of
tries still allowed.  Returns the final outcome, the number of attempts
actually made, and the list of backoff delays waited.  An exception outside
the retried class propagates at once; on the last allowed try any exception
propagates unmodified. -/
def backoffGo (attempts : ℕ → Except PyError (List SqlRow)) :
    ℕ → ℕ → Except PyError (List SqlRow) × ℕ × List ℚ
  | tryIdx, 0 => (attempts tryIdx, tryIdx + 1, [])
  | tryIdx, 1 => (attempts tryIdx, tryIdx + 1, [])
  | tryIdx, remaining + 2 =>
    match attempts tryIdx with
    | .ok v => (.ok v, tryIdx + 1, [])
    | .error e =>
      if e.isOperational then
        let r := backoffGo attempts (tryIdx + 1) (remaining + 1)
        (r.1, r.2.1, expoDelay tryIdx :: r.2.2)
      else
        (.error e, tryIdx + 1, [])

/-- `execute_sql_query` as wrapped by its decorator
`backoff.on_exception(backoff.expo, OperationalError, max_tries=2)`. -/
def execute_sql_query (attempts : ℕ → Except PyError (List SqlRow)) :
    Except PyError (List SqlRow) × ℕ × List ℚ :=
  backoffGo attempts 0 2

/-- The watermark value bound to the `:t0` parameter: the ISO string form
of `last_timestamp` when `simulation_mode == 1`, its datetime form
otherwise. -/
inductive BindValue where
  | iso (t : ℚ)
  | datetime (t : ℚ)
  deriving DecidableEq

/-- The database engine handle (`self.engine`): running a bound statement
on a pooled connection yields a sequence of rows. -/
structure EngineT where
  run : List Char → BindValue → List SqlRow

/-- Observable steps of one `execute_sql_query` body invocation: opening a
connection from the pool, then executing the bound statement. -/
inductive ExecStep where
  | connect
  | execute (sql : List Char) (t0 : BindValue)

/-- The body of `SqlalchemyDataClient.execute_sql_query` (one attempt,
inside the backoff decorator): if `self.engine is None` it raises
`RuntimeError("Not connected.")` before connecting or executing anything;
otherwise it connects, binds `t0` from `last_timestamp` according to
`simulation_mode`, executes the query text, and fetches all rows. -/
def execute_sql_query_body (engine : Option EngineT) (simulation_mode : ℕ)
    (last_timestamp : ℚ) (sql : List Char) :
    Except PyError (List SqlRow) × List ExecStep :=
  match engine with
  | none => (.error (.runtimeError "Not connected."), [])
  | some e =>
    let t0 := if simulation_mode = 1 then BindValue.iso last_timestamp
      else BindValue.datetime last_timestamp
    (.ok (e.run sql t0), [ExecStep.connect, ExecStep.execute sql t0])

/-- Property names recognized by the configuration schema returned by
`SqlalchemyDataClient.get_config_schema` (its `properties` block). -/
def get_config_schema_properties : List String :=
  ["db_uri", "table_name", "poll_interval", "max_read_timeouts"]

/-- The `required` block of the configuration schema. -/
def get_config_schema_required : List String :=
  ["db_uri", "table_name"]

/-- The declared default of each schema property (`poll_interval: 10`,
`max_read_timeouts: 5`; the required fields have none). -/
def get_config_schema_default (key : String) : Option ℚ :=
  if key = "poll_interval" then some 10
  else if key = "max_read_timeouts" then some 5
  else none

/-- The `additionalProperties` flag of the schema (`false`). -/
def get_config_schema_additionalProperties : Bool := false

/-- Field-name level JSON-schema validation of a supplied configuration:
every supplied field must be a recognized property (since
`additionalProperties` is `false`) and every required field must be
supplied. -/
def validateConfigFields (provided : List String) : Bool :=
  (provided.all fun k =>
    decide (k ∈ get_config_schema_properties) ||
      get_config_schema_additionalProperties) &&
  (get_config_schema_required.all fun k => decide (k ∈ provided))

/-- Characters never percent-encoded by `urllib.parse.quote` with its
default `safe="/"`: ASCII letters and digits, the always-safe marks
`_ . - ~`, and the default safe character `/`. -/
def isSafeChar (c : Char) : Bool :=
  c.isAlpha || c.isDigit || c = '_' || c = '.' || c = '-' || c = '~' ||
    c = '/'

/-- Uppercase hexadecimal digit for a value below 16. -/
def hexDigitChar (n : ℕ) : Char :=
  if n < 10 then Char.ofNat (48 + n) else Char.ofNat (55 + n)

/-- UTF-8 encoding of a Unicode code point, as its byte values. -/
def utf8Bytes (n : ℕ) : List ℕ :=
  if n < 0x80 then [n]
  else if n < 0x800 then [0xC0 + n / 0x40, 0x80 + n % 0x40]
  else if n < 0x10000 then
    [0xE0 + n / 0x1000, 0x80 + n / 0x40 % 0x40, 0x80 + n % 0x40]
  else
    [0xF0 + n / 0x40000, 0x80 + n / 0x1000 % 0x40, 0x80 + n / 0x40 % 0x40,
      0x80 + n % 0x40]

/-- Percent-encoding of one byte, `%XX` with uppercase hex digits. -/
def percentEncodeByte (b : ℕ) : List Char :=
  ['%', hexDigitChar (b / 16), hexDigitChar (b % 16)]

/-- The `urllib.parse.quote` function with default arguments: safe
characters pass through, every other character has each byte of its UTF-8
encoding percent-encoded. -/
def quote (s : List Char) : List Char :=
  (s.map fun c =>
    if isSafeChar c then [c]
    else ((utf8Bytes c.toNat).map percentEncodeByte).flatten).flatten

/-- Split a character list at its first closing brace: returns the prefix
before the first `}` together with the remainder after it, or `none` when
no `}` occurs.  This is how the non-greedy regular expression
`\x7b(.*?)\x7d` of `configure` matches, once an opening brace has been
seen. -/
def splitAtBrace : List Char → Option (List Char × List Char)
  | [] => none
  | c :: rest =>
    if c = '}' then some ([], rest)
    else (splitAtBrace rest).map fun p => (c :: p.1, p.2)

/-- Fuel-indexed scan implementing `re.findall(r"\x7b(.*?)\x7d", s)`: each
`{` opens a match that captures up to the nearest following `}`; scanning
resumes after that `}`.  The fuel bounds recursion depth; callers supply
the list length, which suffices. -/
def findPlaceholdersGo : ℕ → List Char → List (List Char)
  | 0, _ => []
  | _ + 1, [] => []
  | fuel + 1, c :: rest =>
    if c = '{' then
      match splitAtBrace rest with
      | some (name, r) => name :: findPlaceholdersGo fuel r
      | none => []
    else findPlaceholdersGo fuel rest

/-- The placeholder names `re.findall` extracts from a URI template. -/
def findPlaceholders (s : List Char) : List (List Char) :=
  findPlaceholdersGo s.length s

/-- Fuel-indexed model of Python `str.format(**kwargs)` restricted to
simple replacement fields: `\x7b\x7b` and `\x7d\x7d` are brace escapes, a
`{` opens a field whose name runs to the matching `}` and is looked up in
`kw` (`none` models a `KeyError`/malformed field, i.e. an exception), a
lone `}` is an error, and every other character is copied. -/
def formatCharsGo (kw : List Char → Option (List Char)) :
    ℕ → List Char → Option (List Char)
  | 0, _ => some []
  | _ + 1, [] => some []
  | fuel + 1, c :: rest =>
    if c = '{' then
      if rest.head? = some '{' then
        (formatCharsGo kw fuel rest.tail).map fun l => '{' :: l
      else
        match splitAtBrace rest with
        | none => none
        | some (name, r) =>
          if name.contains '{' then none
          else
            match kw name with
            | none => none
            | some v => (formatCharsGo kw fuel r).map fun l => v ++ l
    else if c = '}' then
      if rest.head? = some '}' then
        (formatCharsGo kw fuel rest.tail).map fun l => '}' :: l
      else none
    else (formatCharsGo kw fuel rest).map fun l => c :: l

/-- `template.format(**kwargs)` on a character list. -/
def formatChars (kw : List Char → Option (List Char)) (s : List Char) :
    Option (List Char) :=
  formatCharsGo kw s.length s

/-- The process environment: `env k` is `some v` when variable `k` is set
to `v`, `none` when unset. -/
def Env : Type := List Char → Option (List Char)

/-- `os.getenv(key, "")`: the value of the variable, or the empty string
when it is unset. -/
def getenvDefault (env : Env) (key : List Char) : List Char :=
  (env key).getD []

/-- The `SqlalchemyDataClient.configure` resolution of the URI template:
collect the placeholder names with `re.findall`, build the keyword mapping
`key ↦ quote(os.getenv(key, ""))` over exactly those names, and apply
`str.format`.  `none` models an exception escaping `configure`. -/
def configureDbUri (env : Env) (db_uri : List Char) : Option (List Char) :=
  let keys := findPlaceholders db_uri
  formatChars
    (fun k => if decide (k ∈ keys) then some (quote (getenvDefault env k))
      else none)
    db_uri

/-- Whether a character may appear in a `\x7bNAME\x7d` environment-variable
placeholder name. -/
def isNameChar (c : Char) : Bool := c.isAlphanum || c = '_'

/-- Whether a replacement-field name denotes a keyword lookup in Python
`str.format`: nonempty, made of identifier characters, and not all digits
(an empty or all-digit field is positional, not a named one). -/
def validFieldName (name : List Char) : Bool :=
  (!name.isEmpty) && name.all isNameChar && (!name.all Char.isDigit)

/-- Fuel-indexed well-formedness of a URI template for `\x7bNAME\x7d`-style
substitution: every `{` is followed by a valid placeholder name and its
closing `}`, and no stray `}` occurs. -/
def wellFormedGo : ℕ → List Char → Bool
  | 0, _ => true
  | _ + 1, [] => true
  | fuel + 1, c :: rest =>
    if c = '{' then
      match splitAtBrace rest with
      | some (name, r) => validFieldName name && wellFormedGo fuel r
      | none => false
    else if c = '}' then false
    else wellFormedGo fuel rest

/-- Well-formedness of a URI template. -/
def wellFormedTemplate (s : List Char) : Bool :=
  wellFormedGo s.length s

/-- Modelled from the claim's words, for comparison with `configureDbUri`:
the template with every `\x7bNAME\x7d` placeholder replaced by the
percent-encoded value of environment variable `NAME` (empty string when
unset), and everything else left unchanged. -/
def specSubstituteGo (env : Env) : ℕ → List Char → List Char
  | 0, _ => []
  | _ + 1, [] => []
  | fuel + 1, c :: rest =>
    if c = '{' then
      match splitAtBrace rest with
      | some (name, r) =>
        quote (getenvDefault env name) ++ specSubstituteGo env fuel r
      | none => c :: rest
    else c :: specSubstituteGo env fuel rest

/-- The claim's description of the resolved URI. -/
def specSubstitute (env : Env) (s : List Char) : List Char :=
  specSubstituteGo env s.length s

/-- The validated configuration namespace handed to the client
(`self.config`): `db_uri` is the unresolved URI template. -/
structure ClientConfig where
  db_uri : List Char
  table_name : List Char
  poll_interval : ℚ
  max_read_timeouts : ℚ

/-- Client state after `configure()` ran: the unchanged `self.config`
together with the resolved `self.db_uri`. -/
structure ConfiguredClient where
  config : ClientConfig
  db_uri : Option (List Char)

/-- Running `configure` on a fresh client: stores
`self.db_uri = self.config.db_uri.format(**environment_variables)` and
leaves `self.config` untouched. -/
def configureClient (env : Env) (cfg : ClientConfig) : ConfiguredClient :=
  { config := cfg, db_uri := configureDbUri env cfg.db_uri }

/-- The `descr` method: returns `self.config.db_uri`, the unresolved
template. -/
def descr (c : ConfiguredClient) : List Char :=
  c.config.db_uri

/-- The watermark fold is the fold of `max` with each row's timestamp. -/
lemma watermarkAfter_eq_foldl_max (tai : ℚ → ℚ) (w0 : ℚ)
    (rows : List RawRow) :
    watermarkAfter tai w0 rows =
      rows.foldl (fun w r => max w r.time) w0 := by
  simp [watermarkAfter, process]

/-- The initial value is a lower bound of the max fold. -/
lemma le_foldl_max :
    ∀ (rows : List RawRow) (w0 : ℚ),
      w0 ≤ rows.foldl (fun w r => max w r.time) w0 := by
  intro rows
  induction rows with
  | nil => intro w0; exact le_refl w0
  | cons r rs ih =>
    intro w0
    exact le_trans (le_max_left w0 r.time) (ih (max w0 r.time))

/-- Every processed timestamp is a lower bound of the max fold. -/
lemma mem_time_le_foldl_max :
    ∀ (rows : List RawRow) (w0 : ℚ) (r : RawRow), r ∈ rows →
      r.time ≤ rows.foldl (fun w r => max w r.time) w0 := by
  intro rows
  induction rows with
  | nil => intro w0 r hr; cases hr
  | cons a rs ih =>
    intro w0 r hr
    rcases List.mem_cons.mp hr with h | h
    · subst h
      exact le_trans (le_max_right w0 r.time) (le_foldl_max rs (max w0 r.time))
    · exact ih (max w0 a.time) r h

/-- The max fold is attained: it is the initial value or some row's
timestamp. -/
lemma foldl_max_attained :
    ∀ (rows : List RawRow) (w0 : ℚ),
      rows.foldl (fun w r => max w r.time) w0 = w0 ∨
        ∃ r ∈ rows, rows.foldl (fun w r => max w r.time) w0 = r.time := by
  intro rows
  induction rows with
  | nil => intro w0; exact Or.inl rfl
  | cons a rs ih =>
    intro w0
    rcases ih (max w0 a.time) with h | ⟨r, hr, h⟩
    · rcases max_choice w0 a.time with hm | hm
      · exact Or.inl (by rw [List.foldl_cons, h, hm])
      · exact Or.inr ⟨a, List.mem_cons_self a rs, by rw [List.foldl_cons, h, hm]⟩
    · exact Or.inr ⟨r, List.mem_cons_of_mem a hr, by rw [List.foldl_cons, h]⟩

/-- C1: after any sequence of processed rows, the watermark equals the
maximum of its initial value and all processed source timestamps (it is an
upper bound of all of them and is attained by one of them), each single
`process` call never decreases it, and in the effect trace of one `process`
call the emission to the sink occurs strictly before the watermark
mutation. -/
theorem watermark_max_monotone (tai : ℚ → ℚ) (w0 : ℚ)
    (rows : List RawRow) :
    (w0 ≤ watermarkAfter tai w0 rows) ∧
    (∀ r ∈ rows, r.time ≤ watermarkAfter tai w0 rows) ∧
    (watermarkAfter tai w0 rows = w0 ∨
      ∃ r ∈ rows, watermarkAfter tai w0 rows = r.time) ∧
    (∀ (w : ℚ) (r : RawRow), w ≤ (process tai w r).1) ∧
    (∀ (w : ℚ) (r : RawRow) (i j : ℕ) (e : Event) (t : ℚ),
      ((process tai w r).2).get? i = some (Effect.emit e) →
      ((process tai w r).2).get? j = some (Effect.setLastTimestamp t) →
      i < j) := by
  refine ⟨?_, ?_, ?_, ?_, ?_⟩
  · rw [watermarkAfter_eq_foldl_max]; exact le_foldl_max rows w0
  · intro r hr
    rw [watermarkAfter_eq_foldl_max]
    exact mem_time_le_foldl_max rows w0 r hr
  · rw [watermarkAfter_eq_foldl_max]; exact foldl_max_attained rows w0
  · intro w r; exact le_max_left w r.time
  · intro w r i j e t hi hj
    have hi0 : i = 0 := by
      rcases i with _ | _ | _ | _ | i
      · rfl
      · simp [process] at hi
      · simp [process] at hi
      · simp [process] at hi
      · simp [process] at hi
    have hj2 : j = 2 := by
      rcases j with _ | _ | _ | _ | j
      · simp [process] at hj
      · simp [process] at hj
      · rfl
      · simp [process] at hj
      · simp [process] at hj
    omega

/-- A concrete raw row used to instantiate hypotheses of the theorems. -/
def sampleRow : RawRow :=
  { time := 5, star := 1, zen := 1, flux := 1, see2 := 1, see := 1,
    fsee := 1, wind := 1, tau0 := 1, theta0 := 1, totvar := 1, erms := 1,
    J0 := 1, J025 := 1, J05 := 1, J1 := 1, J2 := 1, J4 := 1, J8 := 1,
    J16 := 1 }

/-- Witness for C1 at a concrete input. -/
theorem watermark_max_monotone_witness :
    sampleRow.time ≤ watermarkAfter (fun t => t) 0 [sampleRow] ∧
    (0 : ℚ) ≤ (process (fun t => t) 0 sampleRow).1 ∧ (0 : ℕ) < 2 := by
  have h := watermark_max_monotone (fun t => t) 0 [sampleRow]
  refine ⟨h.2.1 sampleRow (by simp), h.2.2.2.1 0 sampleRow, ?_⟩
  exact h.2.2.2.2 0 sampleRow 0 2 (ringss_event (fun t => t) sampleRow)
    (max 0 sampleRow.time) rfl rfl

/-- C4: with simulation mode off, one `read_data` cycle passes every row
returned by the query to `process` exactly once, as its plain field
mapping, in source order (the processed sub-trace is exactly the mapped row
list — nothing reordered, duplicated or dropped), and the single sleep of
the configured poll interval is the last action of the cycle. -/
lemma filterMap_getProcessed_map (rows : List SqlRow) :
    List.filterMap
      (ReadAction.getProcessed ∘ fun r => ReadAction.processed r.mapping)
      rows = rows.map SqlRow.mapping := by
  induction rows with
  | nil => rfl
  | cons a as ih => simp [List.filterMap_cons, ReadAction.getProcessed, ih]

theorem read_data_live (rows : List SqlRow) (draw : ℕ) (now poll : ℚ) :
    ((read_data 0 rows draw now poll).filterMap ReadAction.getProcessed =
      rows.map SqlRow.mapping) ∧
    ((read_data 0 rows draw now poll).filter ReadAction.isSleep =
      [ReadAction.slept poll]) ∧
    ((read_data 0 rows draw now poll).getLast? =
      some (ReadAction.slept poll)) := by
  refine ⟨?_, ?_, ?_⟩
  · simp [read_data, List.filterMap_append, ReadAction.getProcessed,
      filterMap_getProcessed_map]
  · simp [read_data, List.filter_append, List.filter_map,
      ReadAction.isSleep, Function.comp]
  · simp [read_data]

/-- C7: with simulation mode on, one `read_data` cycle processes exactly
one synthesized row (the `get_simulation_data` row, whose timestamp is the
current wall-clock time) when the `random.randint(1, 6)` draw equals 6, and
processes nothing otherwise; exactly one of the six equiprobable draw
outcomes produces an emission, the synthesized row flows through the same
`process` path as live rows, and the cycle still ends with the sleep. -/
theorem read_data_simulation (rows : List SqlRow) (draw : ℕ)
    (now poll : ℚ) :
    ((read_data 1 rows draw now poll).filterMap ReadAction.getProcessed =
      if draw = 6 then [get_simulation_data now] else []) ∧
    (read_data 1 rows 6 now poll =
      [ReadAction.processed (get_simulation_data now),
        ReadAction.slept poll]) ∧
    ((get_simulation_data now).time = now) ∧
    (((List.range' 1 6).countP fun d =>
        decide ((read_data 1 rows d now poll).filterMap
          ReadAction.getProcessed = [get_simulation_data now])) = 1) ∧
    ((read_data 1 rows draw now poll).getLast? =
      some (ReadAction.slept poll)) := by
  refine ⟨?_, ?_, rfl, ?_, ?_⟩
  · by_cases h : draw = 6 <;>
      simp [read_data, h, ReadAction.getProcessed]
  · simp [read_data]
  · simp [read_data, List.range', List.countP_cons,
      ReadAction.getProcessed]
  · by_cases h : draw = 6 <;> simp [read_data, h]

/-- C8: `get_sql_query` produces exactly the text of a single parameterized
statement selecting all rows of the configured table whose `time` column is
strictly greater than the one bound parameter `t0`; as a plain function of
the table name it performs no execution or side effect, and (for a table
name containing no parameter marker) the statement contains exactly one
bound-parameter marker. -/
theorem get_sql_query_shape (table : List Char) :
    (get_sql_query table =
      renderSql (SqlShape.selectAllGt table "time".toList "t0".toList)) ∧
    (table.count ':' = 0 → (get_sql_query table).count ':' = 1) := by
  constructor
  · simp [get_sql_query, renderSql]
  · intro h
    simp [get_sql_query, List.count_append, h]

/-- Witness for C8 at a concrete table name. -/
theorem get_sql_query_shape_witness :
    "ringss".toList.count ':' = 0 ∧
    (get_sql_query "ringss".toList).count ':' = 1 :=
  ⟨by decide, (get_sql_query_shape "ringss".toList).2 (by decide)⟩

/-- C9: `process` populates every field of the output record from the raw
row — converting the source timestamp with the TAI-from-UTC conversion and
applying the single scale factor 1e-13 uniformly to the eight
turbulence-profile columns J0, J025, J05, J1, J2, J4, J8, J16 in that
order — and the emission of the record through the sink is the first
effect of the call. -/
theorem process_populates_event (tai : ℚ → ℚ) (w : ℚ) (row : RawRow) :
    (ringss_event tai row).timestamp = tai row.time ∧
    (ringss_event tai row).hrNum = row.star ∧
    (ringss_event tai row).zenithDistance = row.zen ∧
    (ringss_event tai row).flux = row.flux ∧
    (ringss_event tai row).fwhmScintillation = row.see ∧
    (ringss_event tai row).fwhmSector = row.see2 ∧
    (ringss_event tai row).fwhmFree = row.fsee ∧
    (ringss_event tai row).wind = row.wind ∧
    (ringss_event tai row).tau0 = row.tau0 ∧
    (ringss_event tai row).theta0 = row.theta0 ∧
    (ringss_event tai row).totalVariance = row.totvar ∧
    (ringss_event tai row).eRMS = row.erms ∧
    ((ringss_event tai row).turbulenceProfiles =
      ([row.J0, row.J025, row.J05, row.J1, row.J2, row.J4, row.J8,
        row.J16].map fun j => j * (1e-13 : ℚ))) ∧
    (((process tai w row).2).head? =
      some (Effect.emit (ringss_event tai row))) := by
  and_intros <;> rfl

/-- C2: the decorated `execute_sql_query` makes at most 2 attempts in
total; a first attempt that succeeds or fails with a non-transient
exception ends the call at once (one attempt, no backoff wait, the failure
propagated unmodified); a first attempt failing with `OperationalError`
triggers exactly one retry after the first exponential-backoff delay, and
whatever the second attempt produces — success or any failure — is
returned or propagated to the caller unmodified. -/
theorem execute_sql_query_retry
    (attempts : ℕ → Except PyError (List SqlRow)) :
    ((execute_sql_query attempts).2.1 ≤ 2) ∧
    (∀ v, attempts 0 = .ok v →
      execute_sql_query attempts = (.ok v, 1, [])) ∧
    (∀ e, attempts 0 = .error e → e.isOperational = false →
      execute_sql_query attempts = (.error e, 1, [])) ∧
    (∀ e, attempts 0 = .error e → e.isOperational = true →
      execute_sql_query attempts = (attempts 1, 2, [expoDelay 0])) := by
  refine ⟨?_, ?_, ?_, ?_⟩
  · cases h : attempts 0 with
    | ok v => simp [execute_sql_query, backoffGo, h]
    | error e =>
      cases he : e.isOperational <;>
        simp [execute_sql_query, backoffGo, h, he]
  · intro v h; simp [execute_sql_query, backoffGo, h]
  · intro e h he; simp [execute_sql_query, backoffGo, h, he]
  · intro e h he; simp [execute_sql_query, backoffGo, h, he]

/-- A query-attempt sequence whose first attempt raises a transient
`OperationalError` and whose second succeeds, used as a concrete input. -/
def attemptsW : ℕ → Except PyError (List SqlRow) :=
  fun i => if i = 0 then .error (.operationalError "server gone") else .ok []

/-- Witness for C2 at a concrete attempt sequence. -/
theorem execute_sql_query_retry_witness :
    attemptsW 0 = .error (.operationalError "server gone") ∧
    (PyError.operationalError "server gone").isOperational = true ∧
    execute_sql_query attemptsW = (attemptsW 1, 2, [expoDelay 0]) :=
  ⟨rfl, rfl,
    (execute_sql_query_retry attemptsW).2.2.2
      (.operationalError "server gone") rfl rfl⟩

/-- C6: invoking the `execute_sql_query` body while `self.engine` is
`None` and simulation mode is off raises `RuntimeError("Not connected.")`
with an empty step trace — no connection is opened and no query is
executed. -/
theorem execute_sql_query_not_connected (simulation_mode : ℕ)
    (last_timestamp : ℚ) (sql : List Char) (_hsim : simulation_mode = 0) :
    execute_sql_query_body none simulation_mode last_timestamp sql =
      (.error (.runtimeError "Not connected."), []) := rfl

/-- Witness for C6 at a concrete input. -/
theorem execute_sql_query_not_connected_witness :
    (0 : ℕ) = 0 ∧
    execute_sql_query_body none 0 0 [] =
      (.error (.runtimeError "Not connected."), []) :=
  ⟨rfl, execute_sql_query_not_connected 0 0 [] rfl⟩

/-- Counterexample to C3 as stated: the schema returned by
`get_config_schema` does not recognize a `connect_timeout` option — it is
not among the schema's properties, and (because `additionalProperties` is
`false`) a configuration supplying `connect_timeout` alongside the two
required fields is rejected rather than validated. -/
theorem connect_timeout_not_recognized :
    get_config_schema_properties.contains "connect_timeout" = false ∧
    validateConfigFields ["db_uri", "table_name", "connect_timeout"] =
      false := by
  refine ⟨?_, ?_⟩ <;> decide

/-- C3 (amended): the validated configuration recognizes exactly `db_uri`
(URI template, required), `table_name` (required), `poll_interval`
(default 10) and `max_read_timeouts` (default 5) — no `connect_timeout`
option; a supplied field set validates exactly when every supplied field is
recognized and both required fields are present, and every recognized
non-required field has a default. -/
theorem get_config_schema_exact (provided : List String) :
    (validateConfigFields provided = true ↔
      ((∀ k ∈ provided, k ∈ get_config_schema_properties) ∧
        (∀ k ∈ get_config_schema_required, k ∈ provided))) ∧
    (∀ k ∈ get_config_schema_properties, k ∉ get_config_schema_required →
      (get_config_schema_default k).isSome = true) ∧
    (get_config_schema_default "poll_interval" = some 10) ∧
    (get_config_schema_default "max_read_timeouts" = some 5) ∧
    (get_config_schema_properties =
      ["db_uri", "table_name", "poll_interval", "max_read_timeouts"]) ∧
    (get_config_schema_required = ["db_uri", "table_name"]) ∧
    (get_config_schema_additionalProperties = false) := by
  refine ⟨?_, by decide, by decide, by decide, rfl, rfl, rfl⟩
  simp [validateConfigFields, get_config_schema_additionalProperties,
    List.all_eq_true, Bool.and_eq_true]

/-- Witness for C3's amended theorem at a concrete field set. -/
theorem get_config_schema_exact_witness :
    validateConfigFields ["db_uri", "table_name", "poll_interval"] =
      true :=
  ((get_config_schema_exact ["db_uri", "table_name", "poll_interval"]).1).mpr
    (by decide)

/-- C10: `descr` returns the configured connection URI template unchanged,
not the environment-resolved URI, so on the same configuration it yields
the same string under any two process environments; moreover there are
environments under which the resolved URIs differ while `descr` still
agrees. -/
theorem descr_env_independent :
    (∀ (cfg : ClientConfig) (env₁ env₂ : Env),
      descr (configureClient env₁ cfg) = descr (configureClient env₂ cfg) ∧
      descr (configureClient env₁ cfg) = cfg.db_uri) ∧
    (∃ (cfg : ClientConfig) (env₁ env₂ : Env),
      (configureClient env₁ cfg).db_uri ≠ (configureClient env₂ cfg).db_uri ∧
      descr (configureClient env₁ cfg) = descr (configureClient env₂ cfg)) := by
  refine ⟨fun cfg env₁ env₂ => ⟨rfl, rfl⟩, ?_⟩
  refine ⟨⟨"\x7bA\x7d".toList, "t".toList, 10, 5⟩,
    fun _ => none, fun _ => some ['b'], ?_, rfl⟩
  decide

/-- A successful `splitAtBrace` decomposes its input around the first
closing brace, and the returned name contains no closing brace. -/
lemma splitAtBrace_some :
    ∀ (l name r : List Char), splitAtBrace l = some (name, r) →
      l = name ++ '}' :: r ∧ name.contains '}' = false := by
  intro l
  induction l with
  | nil => intro name r h; simp [splitAtBrace] at h
  | cons c rest ih =>
    intro name r h
    by_cases hc : c = '}'
    · subst hc
      simp [splitAtBrace] at h
      obtain ⟨h1, h2⟩ := h
      subst h1; subst h2
      exact ⟨rfl, rfl⟩
    · simp only [splitAtBrace, if_neg hc, Option.map_eq_some'] at h
      obtain ⟨⟨n', r'⟩, hsp, h2⟩ := h
      rw [Prod.mk.injEq] at h2
      obtain ⟨hn, hr⟩ := h2
      subst hn; subst hr
      obtain ⟨hl, hcontains⟩ := ih n' r' hsp
      refine ⟨by rw [hl]; rfl, ?_⟩
      simp only [List.contains_cons, Bool.or_eq_false_iff]
      refine ⟨?_, hcontains⟩
      simp only [beq_eq_false_iff_ne, ne_eq]
      intro hceq
      exact hc hceq.symm

/-- A placeholder-name character is neither brace. -/
lemma isNameChar_ne_brace {c : Char} (h : isNameChar c = true) :
    c ≠ '{' ∧ c ≠ '}' := by
  refine ⟨fun heq => ?_, fun heq => ?_⟩ <;>
    (subst heq; exact absurd h (by decide))

/-- A list of placeholder-name characters contains no opening brace. -/
lemma all_nameChar_not_contains {name : List Char}
    (h : name.all isNameChar = true) : name.contains '{' = false := by
  induction name with
  | nil => rfl
  | cons a as ih =>
    rw [List.all_cons, Bool.and_eq_true] at h
    obtain ⟨ha, has⟩ := h
    rw [List.contains_cons, ih has, Bool.or_false]
    simp only [beq_eq_false_iff_ne, ne_eq]
    intro heq
    exact (isNameChar_ne_brace ha).1 heq.symm

/-- Core equivalence: on a well-formed template whose placeholder names
are all bound in `kw` to their percent-encoded environment values,
the `str.format` model produces exactly the claim's direct substitution. -/
lemma formatCharsGo_eq_specSubstituteGo (env : Env)
    (kw : List Char → Option (List Char)) :
    ∀ (fuel : ℕ) (l : List Char), l.length ≤ fuel →
      wellFormedGo fuel l = true →
      (∀ k ∈ findPlaceholdersGo fuel l,
        kw k = some (quote (getenvDefault env k))) →
      formatCharsGo kw fuel l = some (specSubstituteGo env fuel l) := by
  intro fuel
  induction fuel with
  | zero =>
    intro l hlen _ _
    have hl : l = [] := List.length_eq_zero.mp (Nat.le_zero.mp hlen)
    subst hl; rfl
  | succ fuel ih =>
    intro l hlen hwf hkw
    cases l with
    | nil => rfl
    | cons c rest =>
      by_cases hc : c = '{'
      · subst hc
        cases hsplit : splitAtBrace rest with
        | none => simp [wellFormedGo, hsplit] at hwf
        | some p =>
          obtain ⟨name, r⟩ := p
          simp [wellFormedGo, hsplit, Bool.and_eq_true] at hwf
          obtain ⟨hvf, hwfr⟩ := hwf
          obtain ⟨hrest, hnameb⟩ := splitAtBrace_some rest name r hsplit
          simp [validFieldName, Bool.and_eq_true] at hvf
          obtain ⟨⟨hne, hall⟩, _⟩ := hvf
          have hrlen : r.length ≤ fuel := by
            have h1 : rest.length = name.length + 1 + r.length := by
              rw [hrest]; simp; omega
            have h2 : rest.length + 1 ≤ fuel + 1 := by simpa using hlen
            omega
          have hcont : name.contains '{' = false :=
            all_nameChar_not_contains (by
              rw [List.all_eq_true]
              intro x hx
              exact hall x hx)
          have hkwname : kw name = some (quote (getenvDefault env name)) :=
            hkw name (by simp [findPlaceholdersGo, hsplit])
          have ihr := ih r hrlen hwfr (fun k hk =>
            hkw k (by
              simp [findPlaceholdersGo, hsplit]
              exact Or.inr hk))
          cases name with
          | nil => exact absurd rfl hne
          | cons n₁ ns =>
            have hn1 : isNameChar n₁ = true := hall n₁ (by simp)
            have hhead : rest.head? = some n₁ := by rw [hrest]; rfl
            have hcond : ¬(rest.head? = some '{') := by
              rw [hhead]
              intro hh
              have : n₁ = '{' := by injection hh
              exact (isNameChar_ne_brace hn1).1 this
            simp [formatCharsGo, specSubstituteGo, hsplit, hcond, hcont,
              hkwname, ihr]
            refine ⟨fun h => (isNameChar_ne_brace hn1).1 h.symm, ?_⟩
            intro hmem
            have hb := hall '{' (List.mem_cons_of_mem n₁ hmem)
            exact absurd hb (by decide)
      · by_cases hc2 : c = '}'
        · subst hc2
          simp [wellFormedGo] at hwf
        · have hlen' : rest.length ≤ fuel := by simpa using hlen
          have hwf' : wellFormedGo fuel rest = true := by
            simpa [wellFormedGo, hc, hc2] using hwf
          have hkw' : ∀ k ∈ findPlaceholdersGo fuel rest,
              kw k = some (quote (getenvDefault env k)) := by
            intro k hk
            exact hkw k (by simpa [findPlaceholdersGo, hc] using hk)
          have ihr := ih rest hlen' hwf' hkw'
          simp [formatCharsGo, specSubstituteGo, hc, hc2, ihr]

/-- C5: on a well-formed URI template, `configure`'s resolution — collect
the `\x7bNAME\x7d` placeholders with `re.findall`, look each `NAME` up in
the process environment with empty-string default, percent-encode the
value, and apply `str.format` — produces exactly the template with those
substitutions applied and nothing else changed; an unset variable
contributes the (percent-encoding of the) empty string. -/
theorem configure_resolves_placeholders (env : Env) (t : List Char)
    (hwf : wellFormedTemplate t = true) :
    configureDbUri env t = some (specSubstitute env t) ∧
    (∀ k, env k = none → quote (getenvDefault env k) = []) := by
  constructor
  · apply formatCharsGo_eq_specSubstituteGo env _ t.length t (le_refl _) hwf
    intro k hk
    have : k ∈ findPlaceholders t := hk
    simp [this]
  · intro k hk
    simp [getenvDefault, hk, quote]

/-- A concrete URI template with two placeholders. -/
def witnessTemplate : List Char :=
  "db://\x7bUSER\x7d:\x7bPASS\x7d@h/p".toList

/-- A concrete environment: `USER` set to a value needing percent-encoding,
`PASS` unset. -/
def witnessEnv : Env := fun k =>
  if k = "USER".toList then some "a b".toList else none

/-- Witness for C5 at a concrete template and environment. -/
theorem configure_resolves_placeholders_witness :
    wellFormedTemplate witnessTemplate = true ∧
    configureDbUri witnessEnv witnessTemplate =
      some (specSubstitute witnessEnv witnessTemplate) ∧
    configureDbUri witnessEnv witnessTemplate =
      some "db://a%20b:@h/p".toList := by
  refine ⟨by decide, ?_, by decide⟩
  exact (configure_resolves_placeholders witnessEnv witnessTemplate
    (by decide)).1

end Ringss
